import Mathlib

/-!
Verification development for the incremental sync engine of `tap-shopify`
(`tap_shopify/streams/base.py`).

The Python module is shallowly embedded as executable Lean definitions:

* the retry machinery (`shopify_error_handling`, a stack of conditional
  backoff behaviors) is embedded as `BackoffLayer` values whose fields
  mirror each behavior's arguments, together with the predicates
  `is_timeout_error` and `is_not_status_code_fn` translated from source;
* the configuration helper `get_request_timeout` is embedded over an
  explicit `ConfigValue` type that models the JSON value found in the
  configuration together with Python truthiness and `float(...)`
  conversion;
* the paging engine `Stream.get_objects` is embedded as a fuel-indexed
  state-passing function over an integer time axis (timestamps and the
  day-scaled `date_window_size` are placed on one integer axis; none of
  the verified properties depend on sub-unit window sizes), recording the
  yielded records, every persisted bookmark write, and the bounds of each
  date window.
-/

/-! ## Module constants (verbatim from the source header) -/

def RESULTS_PER_PAGE : Nat := 175

def REQUEST_TIMEOUT : ℚ := 300

def DATE_WINDOW_SIZE : Int := 1

def MAX_RETRIES : Nat := 5

/-! ## Error classification helpers -/

/-- Python's substring test `pat in s` (used as `str(e).__contains__('timed out')`
in the source): some offset of `s` starts with `pat`. -/
def strContainsSub (s pat : String) : Bool :=
  (List.range (s.toList.length + 1)).any
    (fun i => decide ((s.toList.drop i).take pat.toList.length = pat.toList))

/-- Embeds `is_timeout_error` from the source: returns `false` (do not give up,
i.e. retry) when the error text contains `'timed out'`, and `true` (give up)
otherwise.  It is passed as the `giveup` callback of a backoff behavior. -/
def is_timeout_error (errorText : String) : Bool :=
  if strContainsSub errorText "timed out" then false else true

/-- Fault model for the exception classes named in `shopify_error_handling`.
Each constructor carries the exception text (`str(e)`); constructors for
`pyactiveresource` connection exceptions carry the optional HTTP status
attribute `code`.  `clientError` additionally carries the wait duration the
server reports on a 429 response (the source never reads it; it is modelled
so that claims about honoring it can be stated). -/
inductive ApiError
  | incompleteRead (text : String)
  | connectionReset (text : String)
  | shopifyAPIError (text : String)
  | clientError (code : Option Nat) (retryAfter : Option Nat) (text : String)
  | resourceNotFound (code : Option Nat) (text : String)
  | serverError (code : Option Nat) (text : String)
  | connError (code : Option Nat) (text : String)
  | socketTimeout (text : String)
  | formatsError (text : String)
  | jsonDecodeError (text : String)
  | urlError (text : String)
  | otherError (text : String)
deriving DecidableEq

/-- The `getattr(exc, 'code', None)` attribute read used by
`is_not_status_code_fn`. -/
def errCode : ApiError → Option Nat
  | .clientError c _ _ => c
  | .resourceNotFound c _ => c
  | .serverError c _ => c
  | .connError c _ => c
  | _ => none

/-- The exception text `str(e)`. -/
def errText : ApiError → String
  | .incompleteRead t => t
  | .connectionReset t => t
  | .shopifyAPIError t => t
  | .clientError _ _ t => t
  | .resourceNotFound _ t => t
  | .serverError _ t => t
  | .connError _ t => t
  | .socketTimeout t => t
  | .formatsError t => t
  | .jsonDecodeError t => t
  | .urlError t => t
  | .otherError t => t

/-- Membership in the `pyactiveresource.connection.Error` class hierarchy:
`ServerError`, `ConnectionError`'s subclasses (`ClientError`,
`ResourceNotFound`) and the base class itself. -/
def isConnectionErrorClass : ApiError → Bool
  | .clientError .. => true
  | .resourceNotFound .. => true
  | .serverError .. => true
  | .connError .. => true
  | _ => false

/-- Embeds `is_not_status_code_fn(status_code)` from the source: give up
when the exception has a truthy `code` attribute that is not in the given
list; otherwise (no code, or code in the list) keep retrying. -/
def is_not_status_code_fn (codes : List Nat) (e : ApiError) : Bool :=
  match errCode e with
  | some c => decide (c ≠ 0 ∧ c ∉ codes)
  | none => false

/-- Python `range(500, 599)`: the integers 500..598. -/
def status5xx : List Nat := (List.range 99).map (fun i => 500 + i)

/-- One `backoff.on_exception(backoff.expo, ...)` behavior from the stack in
`shopify_error_handling`: the classes it catches, its `giveup` callback, its
`max_tries`, the `factor` passed to the exponential wait generator (library
default 1 when absent), and whether the library-default random jitter is in
effect (`jitter=None` disables it). -/
structure BackoffLayer where
  catches : ApiError → Bool
  giveup : ApiError → Bool
  maxTries : Option Nat
  factor : Nat
  jittered : Bool

/-- Outermost behavior: `(http.client.IncompleteRead, ConnectionResetError,
ShopifyAPIError)`, `max_tries=MAX_RETRIES`, `factor=2`. -/
def lTop : BackoffLayer where
  catches := fun e => match e with
    | .incompleteRead _ => true
    | .connectionReset _ => true
    | .shopifyAPIError _ => true
    | _ => false
  giveup := fun _ => false
  maxTries := some MAX_RETRIES
  factor := 2
  jittered := true

/-- The timeout-shaped behavior: `(pyactiveresource.connection.Error,
socket.timeout)`, `giveup=is_timeout_error`, `max_tries=MAX_RETRIES`,
`factor=2`. -/
def lTimeout : BackoffLayer where
  catches := fun e => match e with
    | .socketTimeout _ => true
    | _ => isConnectionErrorClass e
  giveup := fun e => is_timeout_error (errText e)
  maxTries := some MAX_RETRIES
  factor := 2
  jittered := true

/-- The transient-server behavior: `(ServerError, formats.Error,
JSONDecodeError, URLError)` with `giveup=is_not_status_code_fn(range(500, 599))`
and `max_tries=MAX_RETRIES`. -/
def l5xx : BackoffLayer where
  catches := fun e => match e with
    | .serverError .. => true
    | .formatsError _ => true
    | .jsonDecodeError _ => true
    | .urlError _ => true
    | _ => false
  giveup := is_not_status_code_fn status5xx
  maxTries := some MAX_RETRIES
  factor := 1
  jittered := true

/-- The not-found behavior: `ResourceNotFound` with
`giveup=is_not_status_code_fn([404])` and `max_tries=MAX_RETRIES`. -/
def l404 : BackoffLayer where
  catches := fun e => match e with
    | .resourceNotFound .. => true
    | _ => false
  giveup := is_not_status_code_fn [404]
  maxTries := some MAX_RETRIES
  factor := 1
  jittered := true

/-- Innermost behavior, the rate-limit handler: `ClientError` (whose subclasses
include `ResourceNotFound`) with `giveup=is_not_status_code_fn([429])`,
`jitter=None`, and no `max_tries` argument at all. -/
def l429 : BackoffLayer where
  catches := fun e => match e with
    | .clientError .. => true
    | .resourceNotFound .. => true
    | _ => false
  giveup := is_not_status_code_fn [429]
  maxTries := none
  factor := 1
  jittered := false

/-- Decision the backoff library makes after try number `t` (1-based) of a
behavior raises `e`: retry exactly when the exception class is caught, the
`giveup` callback declines, and `max_tries` (when set) is not yet reached. -/
def layerRetries (L : BackoffLayer) (e : ApiError) (t : Nat) : Bool :=
  L.catches e && !L.giveup e &&
    (match L.maxTries with
     | none => true
     | some m => decide (t < m))

/-- Wait computed by `backoff.expo` before retry number `n` (0-based):
`factor * 2 ^ n`; base 2 is the library default. -/
def layerWait (L : BackoffLayer) (n : Nat) : Nat := L.factor * 2 ^ n

/-- Delay the source schedules before retry `n` of the rate-limit behavior.
It is the plain `backoff.expo` value; the fault argument (and hence any wait
duration the server reported) is not consulted. -/
def rateLimitedDelay : ApiError → Nat → Nat := fun _ n => layerWait l429 n

/-- Wait duration the server reported on a 429 response, if any. -/
def reportedWait : ApiError → Option Nat
  | .clientError _ ra _ => ra
  | _ => none

/-- Executes one backoff behavior over a script of call outcomes (`some e` =
the call raises `e`, `none` = the call succeeds), starting at try number `t`:
on an exception the behavior either sleeps and retries or re-raises the very
exception object it caught. -/
def runLayer (L : BackoffLayer) : List (Option ApiError) → Nat → Except ApiError Unit
  | [], _ => .ok ()
  | none :: _, _ => .ok ()
  | some e :: rest, t =>
      if layerRetries L e t then runLayer L rest (t + 1) else .error e

/-! ## Request timeout configuration (`get_request_timeout`) -/

/-- Value found under the `request_timeout` configuration key: absent, a JSON
number, or a string. -/
inductive ConfigValue
  | absent
  | num (x : ℚ)
  | str (s : String)
deriving DecidableEq

/-- Python truthiness of the raw configuration value: `None`, `0` and `""`
are falsy. -/
def configTruthy : ConfigValue → Bool
  | .absent => false
  | .num x => decide (x ≠ 0)
  | .str s => decide (s ≠ "")

/-- Digits-only numeral parser: `some` of the value when every character is
a decimal digit (and there is at least one), else `none`. -/
def parseDigits (cs : List Char) : Option Nat :=
  if cs = [] then none
  else if cs.all (fun c => c.isDigit) then
    some (cs.foldl (fun n c => 10 * n + (c.toNat - 48)) 0)
  else none

/-- Python `float(s)` on a plain decimal string: optional sign, digits,
optional decimal point.  Returns `none` when the string is not a numeral
(in Python: `ValueError`). -/
def parseFloat (s : String) : Option ℚ :=
  let cs := s.toList
  let neg : Bool := cs.head? = some '-'
  let body : List Char :=
    match cs with
    | '-' :: t => t
    | '+' :: t => t
    | t => t
  let mag : Option ℚ :=
    match body.splitOn '.' with
    | [whole] => (parseDigits whole).map (fun n => (n : ℚ))
    | [whole, frac] =>
        if whole = [] && frac = [] then none
        else
          match (if whole = [] then some 0 else parseDigits whole),
                (if frac = [] then some 0 else parseDigits frac) with
          | some wn, some fn => some ((wn : ℚ) + (fn : ℚ) / ((10 : ℚ) ^ frac.length))
          | _, _ => none
    | _ => none
  mag.map (fun v => if neg then -v else v)

/-- Python `float(v)` applied to the raw configuration value: numbers convert
to themselves, strings are parsed, `float(None)` raises (`none` here). -/
def pyFloat : ConfigValue → Option ℚ
  | .absent => none
  | .num x => some x
  | .str s => parseFloat s

deriving instance DecidableEq for Except

/-- Embeds `get_request_timeout` from the source: start from the default of
300 seconds; when the configured value is truthy, convert it with `float`
(a conversion failure propagates, modelled as `Except.error ()`), and adopt
the converted value only when it is itself truthy (nonzero). -/
def get_request_timeout (cfg : ConfigValue) : Except Unit ℚ :=
  if configTruthy cfg then
    match pyFloat cfg with
    | none => .error ()
    | some x => if x ≠ 0 then .ok x else .ok REQUEST_TIMEOUT
  else .ok REQUEST_TIMEOUT

/-! ## The sync engine (`Stream.get_objects`) -/

/-- Record returned by the API: the integer `id` used for cursor pagination
and the parsed replication-key timestamp (`updated_at`). -/
structure Obj where
  id : Int
  updatedAt : Int
deriving DecidableEq

/-- Query parameters built by `get_query_params` (the constant
`<status_key>: "any"` entry carries no information the model uses and is
omitted). -/
structure QueryParams where
  sinceId : Int
  updatedAtMin : Int
  updatedAtMax : Int
  limit : Nat
deriving DecidableEq

/-- Persisted per-stream bookmark state (`state['bookmarks'][<name>]`): the
replication-key high-water mark and the optional mid-window `since_id` and
`updated_at_max` entries. -/
structure StreamState where
  repKey : Option Int
  sinceId : Option Int
  updatedAtMax : Option Int
deriving DecidableEq

/-- One persisted bookmark write: each `update_bookmark` call writes one key
and immediately persists the whole state. -/
inductive WEvent
  | repKey (v : Int)
  | sinceId (v : Int)
  | updatedAtMax (v : Int)
deriving DecidableEq

/-- Bounds of one date window as the outer loop ran it: the `since_id` the
window started from, `updated_at_min` (`lo`) and `updated_at_max` (`hi`). -/
structure WindowInfo where
  sinceId : Int
  lo : Int
  hi : Int
deriving DecidableEq

/-- How one run of the inner page loop ended: the window was closed by a
short page, `OutOfOrderIdsError` was raised, or the loop fuel ran out. -/
inductive InnerOut
  | closed
  | orderErr
  | fuelOut
deriving DecidableEq

/-- How a whole `get_objects` run ended: normal completion (the finalization
bookmark was written), `OutOfOrderIdsError`, or fuel exhaustion of the inner
respectively outer loop. -/
inductive Outcome
  | done
  | orderErr
  | fuelInner
  | fuelOuter
deriving DecidableEq

/-- Result of the inner page loop: records yielded to the consumer, bookmark
writes performed, the running `max_bookmark`, the state left behind, and how
the loop ended. -/
structure InnerResult where
  yielded : List Obj
  events : List WEvent
  maxBookmark : Int
  state : StreamState
  out : InnerOut
deriving DecidableEq

/-- Result of a `get_objects` run: records yielded, bookmark writes in order,
the windows traversed, the final state, and the outcome. -/
structure RunResult where
  yielded : List Obj
  events : List WEvent
  windows : List WindowInfo
  state : StreamState
  outcome : Outcome
deriving DecidableEq

/-- Python `self.get_since_id() or 1`: the stored cursor, with a missing and
a zero (falsy) stored value both replaced by 1. -/
def sinceIdOrOne (st : StreamState) : Int :=
  match st.sinceId with
  | none => 1
  | some s => if s = 0 then 1 else s

/-- Python `objects[-1].id` (0 as the don't-care value for an empty page,
which the source would fault on). -/
def lastId (page : List Obj) : Int :=
  match page.getLast? with
  | none => 0
  | some o => o.id

/-- Python `max([o.id for o in objects])` (0 as the don't-care value for an
empty page). -/
def pageMaxId (page : List Obj) : Int :=
  match page.map (fun o => o.id) with
  | [] => 0
  | a :: t => t.foldl max a

/-- The inner `while True` page loop of `get_objects`, driven by explicit
fuel.  Each iteration fetches a page and walks it in order, yielding each
record and checking it against the `since_id` floor (a violation raises
`OutOfOrderIdsError` at that record, so the violator and everything after it
is not yielded and nothing is written).  After the walk: a page shorter than
the requested limit closes the window — the mid-window keys are removed and
the window's `updated_at_max` is persisted as the replication-key bookmark;
otherwise a page whose last id is not its maximum raises; otherwise
`since_id` advances to the last id and both mid-window keys are persisted. -/
def innerLoop (api : QueryParams → List Obj) (limit : Nat) (lo hi : Int) :
    Nat → Int → Int → StreamState → InnerResult
  | 0, _, mb, st => ⟨[], [], mb, st, .fuelOut⟩
  | fuel + 1, sinceId, mb, st =>
      let page := api ⟨sinceId, lo, hi, limit⟩
      let ys := page.takeWhile (fun o => decide (sinceId ≤ o.id))
      let mb2 := ys.foldl (fun m o => max m o.updatedAt) mb
      if page.any (fun o => decide (o.id < sinceId)) then
        ⟨ys, [], mb2, st, .orderErr⟩
      else if page.length < limit then
        ⟨ys, [WEvent.repKey hi], mb2,
          { st with sinceId := none, updatedAtMax := none, repKey := some hi }, .closed⟩
      else if lastId page ≠ pageMaxId page then
        ⟨ys, [], mb2, st, .orderErr⟩
      else
        let s2 := lastId page
        let r := innerLoop api limit lo hi fuel s2 mb2
          { st with sinceId := some s2, updatedAtMax := some hi }
        ⟨ys ++ r.yielded, WEvent.sinceId s2 :: WEvent.updatedAtMax hi :: r.events,
          r.maxBookmark, r.state, r.out⟩

/-- The outer (`while updated_at_min < stop_time`) loop of `get_objects`,
driven by explicit fuel, with the carried `last_sync_interrupted_at` value
threaded as `carry` (cleared after its first use).  Each iteration reads
`since_id` from state, sets the window's upper bound to the carried
`updated_at_max` if present else `updated_at_min + date_window_size`, clamps
it to `stop_time`, runs the inner loop, and advances `updated_at_min` to the
upper bound.  Once `updated_at_min` reaches `stop_time` the finalization
bookmark `max(min(stop_time, max_bookmark), stop_time - date_window_size)`
is persisted. -/
def outerLoop (api : QueryParams → List Obj) (limit : Nat) (w stop : Int) (fuelI : Nat) :
    Nat → Option Int → Int → Int → StreamState → RunResult
  | 0, _, _, _, st => ⟨[], [], [], st, .fuelOuter⟩
  | fuelO + 1, carry, m, mb, st =>
      if m < stop then
        let sinceId := sinceIdOrOne st
        let hi := min (carry.getD (m + w)) stop
        let ir := innerLoop api limit m hi fuelI sinceId mb st
        let win : WindowInfo := ⟨sinceId, m, hi⟩
        match ir.out with
        | .closed =>
            let r := outerLoop api limit w stop fuelI fuelO none hi ir.maxBookmark ir.state
            ⟨ir.yielded ++ r.yielded, ir.events ++ r.events, win :: r.windows,
              r.state, r.outcome⟩
        | .orderErr => ⟨ir.yielded, ir.events, [win], ir.state, .orderErr⟩
        | .fuelOut => ⟨ir.yielded, ir.events, [win], ir.state, .fuelInner⟩
      else
        let b := max (min stop mb) (stop - w)
        ⟨[], [WEvent.repKey b], [], { st with repKey := some b }, .done⟩

/-- Embeds `Stream.get_objects`: reads the carried `updated_at_max` of an
interrupted sync and the starting bookmark (stored replication-key value, or
the configured `start_date`), initializes `max_bookmark` to the starting
bookmark, and runs the outer loop. -/
def get_objects (api : QueryParams → List Obj) (limit : Nat)
    (start_date w stop : Int) (fuelO fuelI : Nat) (st : StreamState) : RunResult :=
  outerLoop api limit w stop fuelI fuelO st.updatedAtMax
    (st.repKey.getD start_date) (st.repKey.getD start_date) st

/-- The replication-key values among a list of bookmark writes, in order. -/
def repKeyValues (evs : List WEvent) : List Int :=
  evs.filterMap (fun e => match e with
    | .repKey v => some v
    | _ => none)

/-- The replication-key bookmark values written by the window closes of a
run: on normal completion the last replication-key write is the finalization
write and is excluded; otherwise no finalization write happened and every
replication-key write was a window close. -/
def closeWrites (r : RunResult) : List Int :=
  if r.outcome = .done then (repKeyValues r.events).dropLast else repKeyValues r.events



/-! ## Helper lemmas -/

theorem takeWhile_of_no_violation (s : Int) (page : List Obj)
    (h : page.any (fun o => decide (o.id < s)) = false) :
    page.takeWhile (fun o => decide (s ≤ o.id)) = page := by
  rw [List.takeWhile_eq_self_iff]
  intro o ho
  rw [List.any_eq_false] at h
  have h2 := h o ho
  simp only [decide_eq_true_eq] at h2 ⊢
  omega

theorem l429_maxTries : l429.maxTries = none := rfl

theorem runLayer_capped (L : BackoffLayer) (e : ApiError)
    (hM : L.maxTries = some MAX_RETRIES)
    (hc : L.catches e = true) (hg : L.giveup e = false) :
    runLayer L (List.replicate MAX_RETRIES (some e)) 1 = .error e := by
  have hrep : List.replicate MAX_RETRIES (some e) =
      [some e, some e, some e, some e, some e] := rfl
  rw [hrep]
  simp [runLayer, layerRetries, hc, hg, hM, MAX_RETRIES]

theorem runLayer_uncapped (e : ApiError)
    (hc : l429.catches e = true) (hg : l429.giveup e = false) :
    ∀ (k t : Nat), runLayer l429 (List.replicate k (some e) ++ [none]) t = .ok () := by
  intro k
  induction k with
  | zero => intro t; simp [runLayer]
  | succ n ih =>
      intro t
      rw [List.replicate_succ]
      simp only [List.cons_append, runLayer, layerRetries, hc, hg, l429_maxTries]
      simp only [Bool.not_false, Bool.and_true, Bool.true_and, if_true]
      exact ih (t + 1)

/-! ## C1 — timeout-shaped faults: retry vs give-up direction -/

/-- C1 counterexample.  The claim says a fault whose text contains
`'timed out'` makes the machinery give up immediately while other faults of
the classes `(pyactiveresource.connection.Error, socket.timeout)` are
retried.  The embedded behavior does the opposite: the `'timed out'` fault
is retried and the other connection fault is given up on. -/
theorem c1_counterexample :
    strContainsSub (errText (ApiError.socketTimeout "connection timed out")) "timed out" = true ∧
    layerRetries lTimeout (ApiError.socketTimeout "connection timed out") 1 = true ∧
    strContainsSub (errText (ApiError.connError none "connection refused")) "timed out" = false ∧
    layerRetries lTimeout (ApiError.connError none "connection refused") 1 = false := by
  decide

/-- C1 amended: for every fault of the timeout-shaped classes
(`pyactiveresource.connection.Error`, `socket.timeout`) raised inside
`call_api` and not yet at the 5-try cap, the retry machinery retries the
call exactly when the fault's text contains the substring `'timed out'`;
all other faults of these classes propagate without retry
(`is_timeout_error` reports them as give-up faults). -/
theorem c1_amended (e : ApiError) (t : Nat)
    (hc : lTimeout.catches e = true) (ht : t < MAX_RETRIES) :
    layerRetries lTimeout e t = true ↔
      strContainsSub (errText e) "timed out" = true := by
  have hM : lTimeout.maxTries = some MAX_RETRIES := rfl
  have hG : lTimeout.giveup e = is_timeout_error (errText e) := rfl
  cases h : strContainsSub (errText e) "timed out" with
  | true =>
      simp [layerRetries, hc, hG, hM, is_timeout_error, h, ht]
  | false =>
      simp [layerRetries, hc, hG, hM, is_timeout_error, h, ht]

/-- C1 witness: the amended theorem applied at a concrete `socket.timeout`
fault at try 1. -/
theorem c1_witness :
    lTimeout.catches (ApiError.socketTimeout "read timed out") = true ∧
    1 < MAX_RETRIES ∧
    (layerRetries lTimeout (ApiError.socketTimeout "read timed out") 1 = true ↔
      strContainsSub (errText (ApiError.socketTimeout "read timed out")) "timed out" = true) :=
  ⟨by decide, by decide,
    c1_amended (ApiError.socketTimeout "read timed out") 1 (by decide) (by decide)⟩

/-! ## C3 — the delay used for RateLimited (429) faults -/

/-- C3 counterexample.  On a RateLimited fault whose server-reported wait is
30, the delay the source schedules before the first retry is the
`backoff.expo` value 1, not 30 — strictly sooner than the reported wait. -/
theorem c3_counterexample :
    l429.catches (ApiError.clientError (some 429) (some 30) "Too Many Requests") = true ∧
    reportedWait (ApiError.clientError (some 429) (some 30) "Too Many Requests") = some 30 ∧
    rateLimitedDelay (ApiError.clientError (some 429) (some 30) "Too Many Requests") 0 = 1 ∧
    1 < 30 := by
  decide

/-- C3 amended: for every RateLimited fault the delay before retry `n` is
the unjittered exponential value `2 ^ n` (`backoff.expo`, library-default
base 2 and factor 1); no randomized jitter is applied (`jitter=None`), and
the delay is independent of the fault — in particular the wait duration
reported by the server is not consulted. -/
theorem c3_amended (e : ApiError) (n : Nat) (_hc : l429.catches e = true) :
    rateLimitedDelay e n = 2 ^ n ∧
    l429.jittered = false ∧
    (∀ e2 : ApiError, rateLimitedDelay e2 n = rateLimitedDelay e n) := by
  refine ⟨?_, rfl, fun e2 => rfl⟩
  simp [rateLimitedDelay, layerWait, l429]

/-- C3 witness: the amended theorem applied at a concrete 429 fault. -/
theorem c3_witness :
    l429.catches (ApiError.clientError (some 429) (some 30) "") = true ∧
    (rateLimitedDelay (ApiError.clientError (some 429) (some 30) "") 3 = 2 ^ 3 ∧
      l429.jittered = false ∧
      (∀ e2 : ApiError,
        rateLimitedDelay e2 3 = rateLimitedDelay (ApiError.clientError (some 429) (some 30) "") 3)) :=
  ⟨by decide, c3_amended (ApiError.clientError (some 429) (some 30) "") 3 (by decide)⟩

/-! ## C4 — the retry caps of the behavior stack -/

/-- C4 counterexample.  The claim says every retryable class, RateLimited
included, stops after 5 attempts.  The rate-limit behavior is installed with
no `max_tries` at all: after try 5 (and after try 500) it still retries a
429 fault. -/
theorem c4_counterexample :
    layerRetries l429 (ApiError.clientError (some 429) none "") 5 = true ∧
    layerRetries l429 (ApiError.clientError (some 429) none "") 500 = true := by
  decide

/-- C4 amended: the four behaviors installed with `max_tries=MAX_RETRIES`
(connection-level, timeout-shaped, transient-server, not-found) refuse to
retry from try 5 on, and exhausting the 5 tries re-raises the last fault
unchanged; the RateLimited behavior has no try cap — a 429 fault is retried
at every try count, and any finite burst of 429s is outlasted. -/
theorem c4_amended (e : ApiError) (t : Nat) :
    (MAX_RETRIES ≤ t →
      layerRetries lTop e t = false ∧ layerRetries lTimeout e t = false ∧
      layerRetries l5xx e t = false ∧ layerRetries l404 e t = false) ∧
    (lTop.catches e = true →
      runLayer lTop (List.replicate MAX_RETRIES (some e)) 1 = .error e) ∧
    (lTimeout.catches e = true → lTimeout.giveup e = false →
      runLayer lTimeout (List.replicate MAX_RETRIES (some e)) 1 = .error e) ∧
    (l5xx.catches e = true → l5xx.giveup e = false →
      runLayer l5xx (List.replicate MAX_RETRIES (some e)) 1 = .error e) ∧
    (l404.catches e = true → l404.giveup e = false →
      runLayer l404 (List.replicate MAX_RETRIES (some e)) 1 = .error e) ∧
    (l429.catches e = true → l429.giveup e = false →
      ∀ k, runLayer l429 (List.replicate k (some e) ++ [none]) 1 = .ok ()) := by
  refine ⟨?_, ?_, ?_, ?_, ?_, ?_⟩
  · intro ht
    have h1 : lTop.maxTries = some MAX_RETRIES := rfl
    have h2 : lTimeout.maxTries = some MAX_RETRIES := rfl
    have h3 : l5xx.maxTries = some MAX_RETRIES := rfl
    have h4 : l404.maxTries = some MAX_RETRIES := rfl
    have hlt : ¬ t < MAX_RETRIES := by omega
    refine ⟨?_, ?_, ?_, ?_⟩ <;>
      simp [layerRetries, h1, h2, h3, h4, hlt]
  · intro hc
    exact runLayer_capped lTop e rfl hc rfl
  · intro hc hg
    exact runLayer_capped lTimeout e rfl hc hg
  · intro hc hg
    exact runLayer_capped l5xx e rfl hc hg
  · intro hc hg
    exact runLayer_capped l404 e rfl hc hg
  · intro hc hg k
    exact runLayer_uncapped e hc hg k 1

/-- C4 witness: the amended theorem applied at a concrete 500-class fault
at try 7, plus its uncapped-429 part at a concrete 429 fault. -/
theorem c4_witness :
    (MAX_RETRIES ≤ 7 →
      layerRetries lTop (ApiError.serverError (some 500) "boom") 7 = false ∧
      layerRetries lTimeout (ApiError.serverError (some 500) "boom") 7 = false ∧
      layerRetries l5xx (ApiError.serverError (some 500) "boom") 7 = false ∧
      layerRetries l404 (ApiError.serverError (some 500) "boom") 7 = false) ∧
    runLayer l5xx (List.replicate MAX_RETRIES (some (ApiError.serverError (some 500) "boom"))) 1 =
      .error (ApiError.serverError (some 500) "boom") ∧
    runLayer l429 (List.replicate 9 (some (ApiError.clientError (some 429) none "")) ++ [none]) 1 =
      .ok () :=
  ⟨(c4_amended (ApiError.serverError (some 500) "boom") 7).1,
    (c4_amended (ApiError.serverError (some 500) "boom") 7).2.2.2.1 (by decide) (by decide),
    (c4_amended (ApiError.clientError (some 429) none "") 7).2.2.2.2.2 (by decide) (by decide) 9⟩

/-! ## C9 — `get_request_timeout` fallback behavior -/

/-- C9 counterexample.  The claim says every non-numeric configured value
falls back to the default of 300 seconds.  In the source a truthy
non-numeric string reaches `float(...)`, which raises `ValueError`; the
function does not return at all, let alone the default. -/
theorem c9_counterexample :
    get_request_timeout (ConfigValue.str "abc") = Except.error () ∧
    get_request_timeout (ConfigValue.str "abc") ≠ Except.ok REQUEST_TIMEOUT := by
  decide

/-- C9 amended: `get_request_timeout` returns the configured
`request_timeout` as a float when a truthy numeric value is set, and falls
back to the default of 300 seconds for an absent value, for zero (number
`0` or string `"0"`), and for the empty string; a truthy non-numeric string
instead raises (`float` conversion error) rather than falling back. -/
theorem c9_amended :
    get_request_timeout ConfigValue.absent = Except.ok REQUEST_TIMEOUT ∧
    get_request_timeout (ConfigValue.num 0) = Except.ok REQUEST_TIMEOUT ∧
    get_request_timeout (ConfigValue.str "") = Except.ok REQUEST_TIMEOUT ∧
    get_request_timeout (ConfigValue.str "0") = Except.ok REQUEST_TIMEOUT ∧
    (∀ x : ℚ, x ≠ 0 → get_request_timeout (ConfigValue.num x) = Except.ok x) ∧
    (∀ s : String, ∀ x : ℚ, s ≠ "" → parseFloat s = some x → x ≠ 0 →
      get_request_timeout (ConfigValue.str s) = Except.ok x) ∧
    (∀ s : String, s ≠ "" → parseFloat s = some 0 →
      get_request_timeout (ConfigValue.str s) = Except.ok REQUEST_TIMEOUT) ∧
    (∀ s : String, s ≠ "" → parseFloat s = none →
      get_request_timeout (ConfigValue.str s) = Except.error ()) := by
  refine ⟨by decide, by decide, by decide, by decide, ?_, ?_, ?_, ?_⟩
  · intro x hx
    simp [get_request_timeout, configTruthy, pyFloat, hx]
  · intro s x hs hp hx
    simp [get_request_timeout, configTruthy, pyFloat, hs, hp, hx]
  · intro s hs hp
    simp [get_request_timeout, configTruthy, pyFloat, hs, hp]
  · intro s hs hp
    simp [get_request_timeout, configTruthy, pyFloat, hs, hp]

/-- C9 witness: the quantified parts of the amended theorem applied at the
concrete values 100 (number) and `"7"` (numeric string). -/
theorem c9_witness :
    get_request_timeout (ConfigValue.num 100) = Except.ok 100 ∧
    get_request_timeout (ConfigValue.str "7") = Except.ok (((7 : ℕ) : ℚ)) :=
  ⟨c9_amended.2.2.2.2.1 100 (by decide),
    c9_amended.2.2.2.2.2.1 "7" (((7 : ℕ) : ℚ)) (by decide) (by decide) (by decide)⟩

theorem repKeyValues_append (a b : List WEvent) :
    repKeyValues (a ++ b) = repKeyValues a ++ repKeyValues b := by
  simp [repKeyValues, List.filterMap_append]

theorem innerLoop_repKeyValues (api : QueryParams → List Obj) (limit : Nat) (lo hi : Int) :
    ∀ (fuel : Nat) (s mb : Int) (st : StreamState),
      repKeyValues (innerLoop api limit lo hi fuel s mb st).events =
        (if (innerLoop api limit lo hi fuel s mb st).out = InnerOut.closed
          then [hi] else []) := by
  intro fuel
  induction fuel with
  | zero =>
      intro s mb st
      simp [innerLoop, repKeyValues]
  | succ n ih =>
      intro s mb st
      simp only [innerLoop]
      split
      · simp [repKeyValues]
      · split
        · simp [repKeyValues]
        · split
          · simp [repKeyValues]
          · simp only [repKeyValues, List.filterMap_cons]
            exact ih _ _ _

theorem closeWrites_window (hi : Int) (r2 : RunResult) (y : List Obj)
    (evs : List WEvent) (win : WindowInfo) (hev : repKeyValues evs = [hi])
    (hne : r2.outcome = Outcome.done → repKeyValues r2.events ≠ []) :
    closeWrites ⟨y ++ r2.yielded, evs ++ r2.events, win :: r2.windows,
        r2.state, r2.outcome⟩ =
      hi :: closeWrites r2 := by
  unfold closeWrites
  simp only [repKeyValues_append, hev]
  by_cases hdone : r2.outcome = Outcome.done
  · have hvals : repKeyValues r2.events ≠ [] := hne hdone
    simp only [hdone, if_pos rfl]
    cases hv : repKeyValues r2.events with
    | nil => exact absurd hv hvals
    | cons a t => simp [List.dropLast_cons₂]
  · simp [hdone]

theorem outerLoop_closeWrites (api : QueryParams → List Obj) (limit : Nat)
    (w stop : Int) (fuelI : Nat) (hw : 0 ≤ w) :
    ∀ (fuelO : Nat) (carry : Option Int) (m mb : Int) (st : StreamState),
      (∀ c, carry = some c → m ≤ c) →
      List.Chain' (fun a b => a ≤ b)
          (closeWrites (outerLoop api limit w stop fuelI fuelO carry m mb st)) ∧
      (∀ v ∈ closeWrites (outerLoop api limit w stop fuelI fuelO carry m mb st), m ≤ v) ∧
      ((outerLoop api limit w stop fuelI fuelO carry m mb st).outcome = Outcome.done →
        repKeyValues (outerLoop api limit w stop fuelI fuelO carry m mb st).events ≠ []) := by
  intro fuelO
  induction fuelO with
  | zero =>
      intro carry m mb st hc
      simp [outerLoop, closeWrites, repKeyValues]
  | succ n ih =>
      intro carry m mb st hc
      by_cases hm : m < stop
      · have hmhi : m ≤ min (carry.getD (m + w)) stop := by
          cases carry with
          | none => simp only [Option.getD]; exact le_min (by omega) (by omega)
          | some c =>
              have := hc c rfl
              exact le_min (by simpa using this) (by omega)
        rw [outerLoop]
        simp only [if_pos hm]
        have hev := innerLoop_repKeyValues api limit m
          (min (carry.getD (m + w)) stop) fuelI (sinceIdOrOne st) mb st
        split
        · next hQ =>
            rw [hQ, if_pos rfl] at hev
            obtain ⟨ih1, ih2, ih3⟩ := ih none (min (carry.getD (m + w)) stop)
              (innerLoop api limit m (min (carry.getD (m + w)) stop) fuelI
                (sinceIdOrOne st) mb st).maxBookmark
              (innerLoop api limit m (min (carry.getD (m + w)) stop) fuelI
                (sinceIdOrOne st) mb st).state
              (by intro c hcc; cases hcc)
            rw [closeWrites_window _ _ _ _ _ hev ih3]
            refine ⟨?_, ?_, ?_⟩
            · rw [List.chain'_cons']
              exact ⟨fun y hy => ih2 y (List.mem_of_mem_head? hy), ih1⟩
            · intro v hv
              rcases List.mem_cons.mp hv with h | h
              · omega
              · exact le_trans hmhi (ih2 v h)
            · intro _
              simp [repKeyValues_append, hev]
        · next hQ =>
            rw [hQ] at hev
            simp only [reduceCtorEq, if_neg] at hev
            refine ⟨?_, ?_, ?_⟩ <;> simp [closeWrites, hev]
        · next hQ =>
            rw [hQ] at hev
            simp only [reduceCtorEq, if_neg] at hev
            refine ⟨?_, ?_, ?_⟩ <;> simp [closeWrites, hev]
      · rw [outerLoop]
        simp only [if_neg hm]
        refine ⟨?_, ?_, ?_⟩ <;> simp [closeWrites, repKeyValues]

theorem outerLoop_windows (api : QueryParams → List Obj) (limit : Nat)
    (w stop : Int) (fuelI : Nat) :
    ∀ (fuelO : Nat) (m mb : Int) (st : StreamState),
      ∀ win ∈ (outerLoop api limit w stop fuelI fuelO none m mb st).windows,
        win.hi = min (win.lo + w) stop ∧ win.lo < stop := by
  intro fuelO
  induction fuelO with
  | zero =>
      intro m mb st win hwin
      simp [outerLoop] at hwin
  | succ n ih =>
      intro m mb st win hwin
      by_cases hm : m < stop
      · rw [outerLoop] at hwin
        simp only [if_pos hm] at hwin
        split at hwin
        · simp only [List.mem_cons] at hwin
          rcases hwin with h | h
          · subst h
            simp only [Option.getD_none]
            exact ⟨trivial, hm⟩
          · exact ih _ _ _ win h
        · simp only [List.mem_singleton] at hwin
          subst hwin
          simp only [Option.getD_none]
          exact ⟨trivial, hm⟩
        · simp only [List.mem_singleton] at hwin
          subst hwin
          simp only [Option.getD_none]
          exact ⟨trivial, hm⟩
      · rw [outerLoop] at hwin
        simp only [if_neg hm] at hwin
        simp at hwin

theorem outerLoop_terminates (api : QueryParams → List Obj) (limit : Nat)
    (w stop : Int) (fuelI : Nat) (hw : 0 < w) :
    ∀ (n : Nat) (m mb : Int) (st : StreamState), stop - m ≤ (n : Int) * w →
      (outerLoop api limit w stop fuelI (n + 1) none m mb st).outcome ≠ Outcome.fuelOuter := by
  intro n
  induction n with
  | zero =>
      intro m mb st hb
      have hm : ¬ m < stop := by
        simp only [Nat.cast_zero, zero_mul] at hb
        omega
      rw [outerLoop]
      simp [if_neg hm]
  | succ k ih =>
      intro m mb st hb
      by_cases hm : m < stop
      · rw [outerLoop]
        simp only [if_pos hm]
        split
      -- the recursive call after a closed window
        · next hQ =>
            have hkw : (0 : Int) ≤ (k : Int) * w :=
              mul_nonneg (Int.natCast_nonneg k) (le_of_lt hw)
            have hb2 : stop - min ((none : Option Int).getD (m + w)) stop ≤ (k : Int) * w := by
              simp only [Option.getD_none]
              push_cast at hb
              rcases le_or_lt (m + w) stop with h | h
              · rw [min_eq_left h]; linarith
              · rw [min_eq_right (le_of_lt h)]; linarith
            have hrec := ih (min ((none : Option Int).getD (m + w)) stop)
              (innerLoop api limit m (min ((none : Option Int).getD (m + w)) stop) fuelI
                (sinceIdOrOne st) mb st).maxBookmark
              (innerLoop api limit m (min ((none : Option Int).getD (m + w)) stop) fuelI
                (sinceIdOrOne st) mb st).state hb2
            simpa using hrec
        · next hQ => simp
        · next hQ => simp
      · rw [outerLoop]
        simp [if_neg hm]

theorem outerLoop_zero_window_spins :
    ∀ (fuelO : Nat) (mb : Int) (st : StreamState),
      (outerLoop (fun _ => []) 1 0 1 1 fuelO none 0 mb st).outcome = Outcome.fuelOuter := by
  intro fuelO
  induction fuelO with
  | zero => intro mb st; rfl
  | succ n ih =>
      intro mb st
      rw [outerLoop]
      have h01 : (0 : Int) < 1 := by decide
      simp only [if_pos h01, Option.getD_none, innerLoop]
      norm_num
      exact ih mb _

theorem innerLoop_step_violation (api : QueryParams → List Obj) (limit : Nat)
    (lo hi : Int) (fuel : Nat) (s mb : Int) (st : StreamState)
    (hv : (api ⟨s, lo, hi, limit⟩).any (fun o => decide (o.id < s)) = true) :
    innerLoop api limit lo hi (fuel + 1) s mb st =
      ⟨(api ⟨s, lo, hi, limit⟩).takeWhile (fun o => decide (s ≤ o.id)), [],
        ((api ⟨s, lo, hi, limit⟩).takeWhile (fun o => decide (s ≤ o.id))).foldl
          (fun m o => max m o.updatedAt) mb, st, InnerOut.orderErr⟩ := by
  simp only [innerLoop, hv]
  simp

theorem innerLoop_step_closed (api : QueryParams → List Obj) (limit : Nat)
    (lo hi : Int) (fuel : Nat) (s mb : Int) (st : StreamState)
    (hfloor : (api ⟨s, lo, hi, limit⟩).any (fun o => decide (o.id < s)) = false)
    (hlen : (api ⟨s, lo, hi, limit⟩).length < limit) :
    innerLoop api limit lo hi (fuel + 1) s mb st =
      ⟨api ⟨s, lo, hi, limit⟩, [WEvent.repKey hi],
        (api ⟨s, lo, hi, limit⟩).foldl (fun m o => max m o.updatedAt) mb,
        { st with sinceId := none, updatedAtMax := none, repKey := some hi },
        InnerOut.closed⟩ := by
  simp only [innerLoop, hfloor]
  rw [takeWhile_of_no_violation _ _ hfloor]
  simp [if_pos hlen]

theorem innerLoop_step_orderErr (api : QueryParams → List Obj) (limit : Nat)
    (lo hi : Int) (fuel : Nat) (s mb : Int) (st : StreamState)
    (hfloor : (api ⟨s, lo, hi, limit⟩).any (fun o => decide (o.id < s)) = false)
    (hlen : ¬ (api ⟨s, lo, hi, limit⟩).length < limit)
    (hsort : lastId (api ⟨s, lo, hi, limit⟩) ≠ pageMaxId (api ⟨s, lo, hi, limit⟩)) :
    innerLoop api limit lo hi (fuel + 1) s mb st =
      ⟨api ⟨s, lo, hi, limit⟩, [],
        (api ⟨s, lo, hi, limit⟩).foldl (fun m o => max m o.updatedAt) mb, st,
        InnerOut.orderErr⟩ := by
  simp only [innerLoop, hfloor]
  rw [takeWhile_of_no_violation _ _ hfloor]
  simp [if_neg hlen, if_pos hsort]

theorem innerLoop_step_next (api : QueryParams → List Obj) (limit : Nat)
    (lo hi : Int) (fuel : Nat) (s mb : Int) (st : StreamState)
    (hfloor : (api ⟨s, lo, hi, limit⟩).any (fun o => decide (o.id < s)) = false)
    (hlen : ¬ (api ⟨s, lo, hi, limit⟩).length < limit)
    (hsort : lastId (api ⟨s, lo, hi, limit⟩) = pageMaxId (api ⟨s, lo, hi, limit⟩)) :
    innerLoop api limit lo hi (fuel + 1) s mb st =
      ⟨api ⟨s, lo, hi, limit⟩ ++
          (innerLoop api limit lo hi fuel (lastId (api ⟨s, lo, hi, limit⟩))
            ((api ⟨s, lo, hi, limit⟩).foldl (fun m o => max m o.updatedAt) mb)
            { st with sinceId := some (lastId (api ⟨s, lo, hi, limit⟩)),
                      updatedAtMax := some hi }).yielded,
        WEvent.sinceId (lastId (api ⟨s, lo, hi, limit⟩)) :: WEvent.updatedAtMax hi ::
          (innerLoop api limit lo hi fuel (lastId (api ⟨s, lo, hi, limit⟩))
            ((api ⟨s, lo, hi, limit⟩).foldl (fun m o => max m o.updatedAt) mb)
            { st with sinceId := some (lastId (api ⟨s, lo, hi, limit⟩)),
                      updatedAtMax := some hi }).events,
        (innerLoop api limit lo hi fuel (lastId (api ⟨s, lo, hi, limit⟩))
            ((api ⟨s, lo, hi, limit⟩).foldl (fun m o => max m o.updatedAt) mb)
            { st with sinceId := some (lastId (api ⟨s, lo, hi, limit⟩)),
                      updatedAtMax := some hi }).maxBookmark,
        (innerLoop api limit lo hi fuel (lastId (api ⟨s, lo, hi, limit⟩))
            ((api ⟨s, lo, hi, limit⟩).foldl (fun m o => max m o.updatedAt) mb)
            { st with sinceId := some (lastId (api ⟨s, lo, hi, limit⟩)),
                      updatedAtMax := some hi }).state,
        (innerLoop api limit lo hi fuel (lastId (api ⟨s, lo, hi, limit⟩))
            ((api ⟨s, lo, hi, limit⟩).foldl (fun m o => max m o.updatedAt) mb)
            { st with sinceId := some (lastId (api ⟨s, lo, hi, limit⟩)),
                      updatedAtMax := some hi }).out⟩ := by
  simp only [innerLoop, hfloor]
  rw [takeWhile_of_no_violation _ _ hfloor]
  simp [if_neg hlen, hsort]

theorem outerLoop_windows_tail (api : QueryParams → List Obj) (limit : Nat)
    (w stop : Int) (fuelI : Nat) (fuelO : Nat) (carry : Option Int)
    (m mb : Int) (st : StreamState) :
    ∀ win ∈ (outerLoop api limit w stop fuelI fuelO carry m mb st).windows.tail,
      win.hi = min (win.lo + w) stop ∧ win.lo < stop := by
  intro win hwin
  cases fuelO with
  | zero => simp [outerLoop] at hwin
  | succ n =>
      rw [outerLoop] at hwin
      by_cases hm : m < stop
      · simp only [if_pos hm] at hwin
        split at hwin
        · simp only [List.tail_cons] at hwin
          exact outerLoop_windows api limit w stop fuelI n _ _ _ win hwin
        · simp at hwin
        · simp at hwin
      · simp [if_neg hm] at hwin

theorem outerLoop_head_window (api : QueryParams → List Obj) (limit : Nat)
    (w stop : Int) (fuelI : Nat) (fuelO : Nat) (carry : Option Int)
    (m mb : Int) (st : StreamState) :
    ∀ win, (outerLoop api limit w stop fuelI fuelO carry m mb st).windows.head? = some win →
      win = ⟨sinceIdOrOne st, m, min (carry.getD (m + w)) stop⟩ ∧ m < stop := by
  intro win hwin
  cases fuelO with
  | zero => simp [outerLoop] at hwin
  | succ n =>
      rw [outerLoop] at hwin
      by_cases hm : m < stop
      · simp only [if_pos hm] at hwin
        split at hwin <;>
          · simp only [List.head?_cons, Option.some.injEq] at hwin
            exact ⟨hwin.symm, hm⟩
      · simp [if_neg hm] at hwin

/-! ## C5 — unsorted pages (last id not the page maximum) -/

/-- C5 counterexample.  The claim asserts that EVERY page whose last id is
not the page maximum raises `OutOfOrderIdsError` with no checkpoint write.
The source performs the sortedness check only after the short-page check:
a SHORT unsorted page (here `[3, 2]` against page size 3) closes the window
and performs checkpoint writes — the run completes and writes bookmarks
instead of raising. -/
theorem c5_counterexample :
    lastId [⟨3, 0⟩, ⟨2, 0⟩] ≠ pageMaxId [⟨3, 0⟩, ⟨2, 0⟩] ∧
    ([⟨3, 0⟩, ⟨2, 0⟩] : List Obj).length < 3 ∧
    (get_objects (fun _ => [⟨3, 0⟩, ⟨2, 0⟩]) 3 0 1 1 2 1 ⟨none, none, none⟩).outcome =
      Outcome.done ∧
    (get_objects (fun _ => [⟨3, 0⟩, ⟨2, 0⟩]) 3 0 1 1 2 1 ⟨none, none, none⟩).events =
      [WEvent.repKey 1, WEvent.repKey 0] := by
  decide

/-- C5 amended: for every FULL fetched page (record count at least the
requested page size) whose last record's id is not the maximum id present —
with every id passing the `since_id` floor walked first — `get_objects`
raises `OutOfOrderIdsError` and performs zero checkpoint writes for that
page, leaving the persisted state untouched; stated here for the first page
of a fresh run.  (A SHORT unsorted page instead closes the window without
the sortedness check — see the counterexample.)  In particular a first page
with ids `[3, 2]` against page size 2 raises with no checkpoint write. -/
theorem c5_amended (api : QueryParams → List Obj) (limit : Nat)
    (start w stop : Int) (fuelO fuelI : Nat) (st0 : StreamState)
    (hm : st0.repKey.getD start < stop)
    (hcarry : st0.updatedAtMax = none) (hsince : st0.sinceId = none)
    (hfull : limit ≤ (api ⟨1, st0.repKey.getD start,
        min (st0.repKey.getD start + w) stop, limit⟩).length)
    (hfloor : (api ⟨1, st0.repKey.getD start, min (st0.repKey.getD start + w) stop,
        limit⟩).any (fun o => decide (o.id < 1)) = false)
    (hsort : lastId (api ⟨1, st0.repKey.getD start,
        min (st0.repKey.getD start + w) stop, limit⟩) ≠
      pageMaxId (api ⟨1, st0.repKey.getD start,
        min (st0.repKey.getD start + w) stop, limit⟩)) :
    (get_objects api limit start w stop (fuelO + 1) (fuelI + 1) st0).outcome =
      Outcome.orderErr ∧
    (get_objects api limit start w stop (fuelO + 1) (fuelI + 1) st0).events = [] ∧
    (get_objects api limit start w stop (fuelO + 1) (fuelI + 1) st0).state = st0 := by
  have hlen : ¬ (api ⟨1, st0.repKey.getD start,
      min (st0.repKey.getD start + w) stop, limit⟩).length < limit := by omega
  have hsid : sinceIdOrOne st0 = 1 := by simp [sinceIdOrOne, hsince]
  have hstep := innerLoop_step_orderErr api limit (st0.repKey.getD start)
    (min (st0.repKey.getD start + w) stop) fuelI 1 (st0.repKey.getD start) st0
    hfloor hlen hsort
  unfold get_objects
  rw [outerLoop, hcarry]
  simp only [Option.getD_none, if_pos hm, hsid, hstep]
  exact ⟨trivial, trivial, trivial⟩

/-- C5 witness: the amended theorem applied to the spec's scenario — first
page `[3, 2]` (descending ids) against page size 2. -/
theorem c5_witness :
    (get_objects (fun _ => [⟨3, 1⟩, ⟨2, 1⟩]) 2 0 1 2 2 2 ⟨none, none, none⟩).outcome =
      Outcome.orderErr ∧
    (get_objects (fun _ => [⟨3, 1⟩, ⟨2, 1⟩]) 2 0 1 2 2 2 ⟨none, none, none⟩).events = [] ∧
    (get_objects (fun _ => [⟨3, 1⟩, ⟨2, 1⟩]) 2 0 1 2 2 2 ⟨none, none, none⟩).state =
      ⟨none, none, none⟩ :=
  c5_amended (fun _ => [⟨3, 1⟩, ⟨2, 1⟩]) 2 0 1 2 1 1 ⟨none, none, none⟩
    (by decide) rfl rfl (by decide) (by decide) (by decide)

/-! ## C6 — records below the since_id floor -/

/-- C6 confirmed: whenever the fetched page contains a record with id below
the `since_id` floor, the page loop raises `OutOfOrderIdsError` at the first
such record — the records yielded are exactly the prefix before it (all of
which honor the floor), the violating record and everything after it in the
page is not yielded, no checkpoint write is performed for that page and the
persisted state is untouched. -/
theorem c6_floor_violation (api : QueryParams → List Obj) (limit : Nat)
    (lo hi : Int) (fuel : Nat) (s mb : Int) (st : StreamState)
    (hv : (api ⟨s, lo, hi, limit⟩).any (fun o => decide (o.id < s)) = true) :
    (innerLoop api limit lo hi (fuel + 1) s mb st).out = InnerOut.orderErr ∧
    (innerLoop api limit lo hi (fuel + 1) s mb st).events = [] ∧
    (innerLoop api limit lo hi (fuel + 1) s mb st).state = st ∧
    (innerLoop api limit lo hi (fuel + 1) s mb st).yielded =
      (api ⟨s, lo, hi, limit⟩).takeWhile (fun o => decide (s ≤ o.id)) ∧
    (∀ o ∈ (innerLoop api limit lo hi (fuel + 1) s mb st).yielded, s ≤ o.id) ∧
    (∀ o ∈ api ⟨s, lo, hi, limit⟩, o.id < s →
      o ∉ (innerLoop api limit lo hi (fuel + 1) s mb st).yielded) := by
  have hstep := innerLoop_step_violation api limit lo hi fuel s mb st hv
  rw [hstep]
  refine ⟨rfl, rfl, rfl, rfl, ?_, ?_⟩
  · intro o ho
    have h2 := List.mem_takeWhile_imp ho
    simpa using h2
  · intro o _ hlt hmem
    have h2 := List.mem_takeWhile_imp hmem
    simp only [decide_eq_true_eq] at h2
    omega

/-- C6 witness: the theorem applied to the spec's scenario — floor
`since_id = 10`, page `[{id 12}, {id 7}]`: the id-7 record triggers the
fault and is not yielded. -/
theorem c6_witness :
    (innerLoop (fun _ => [⟨12, 4⟩, ⟨7, 9⟩]) 2 0 5 1 10 0 ⟨none, some 10, none⟩).out =
        InnerOut.orderErr ∧
    (innerLoop (fun _ => [⟨12, 4⟩, ⟨7, 9⟩]) 2 0 5 1 10 0 ⟨none, some 10, none⟩).events = [] ∧
    (innerLoop (fun _ => [⟨12, 4⟩, ⟨7, 9⟩]) 2 0 5 1 10 0 ⟨none, some 10, none⟩).state =
      ⟨none, some 10, none⟩ ∧
    (innerLoop (fun _ => [⟨12, 4⟩, ⟨7, 9⟩]) 2 0 5 1 10 0 ⟨none, some 10, none⟩).yielded =
      (((fun (_ : QueryParams) => [⟨12, 4⟩, ⟨7, 9⟩]) ⟨10, 0, 5, 2⟩).takeWhile
        (fun o => decide ((10 : Int) ≤ o.id))) ∧
    (∀ o ∈ (innerLoop (fun _ => [⟨12, 4⟩, ⟨7, 9⟩]) 2 0 5 1 10 0
        ⟨none, some 10, none⟩).yielded, (10 : Int) ≤ o.id) ∧
    (∀ o ∈ (fun (_ : QueryParams) => [⟨12, 4⟩, ⟨7, 9⟩]) (⟨10, 0, 5, 2⟩ : QueryParams),
      o.id < 10 →
      o ∉ (innerLoop (fun _ => [⟨12, 4⟩, ⟨7, 9⟩]) 2 0 5 1 10 0
        ⟨none, some 10, none⟩).yielded) :=
  c6_floor_violation (fun _ => [⟨12, 4⟩, ⟨7, 9⟩]) 2 0 5 0 10 0 ⟨none, some 10, none⟩
    (by decide)

/-! ## C7 — end-of-window detection -/

/-- C7 counterexample.  The claim's "if" direction says a page with fewer
records than the requested size closes the window (clearing the mid-window
keys and persisting the bookmark).  A short page that also violates the
`since_id` floor raises instead: nothing is cleared, nothing is written,
and the loop does not close the window. -/
theorem c7_counterexample :
    ([⟨7, 0⟩] : List Obj).length < 2 ∧
    (innerLoop (fun _ => [⟨7, 0⟩]) 2 0 5 1 10 0 ⟨none, some 10, none⟩).out ≠
      InnerOut.closed ∧
    (innerLoop (fun _ => [⟨7, 0⟩]) 2 0 5 1 10 0 ⟨none, some 10, none⟩).events = [] ∧
    (innerLoop (fun _ => [⟨7, 0⟩]) 2 0 5 1 10 0 ⟨none, some 10, none⟩).state =
      ⟨none, some 10, none⟩ := by
  decide

/-- C7 amended: among pages whose records all pass the `since_id` floor
check, a window closes if and only if the fetched page's record count is
strictly less than the requested page size; exactly at that point the
mid-window keys `since_id` and `updated_at_max` are removed from the
persisted state, the window's `updated_at_max` is persisted as the new
replication-key bookmark, and the inner loop exits (`InnerOut.closed`).  A
full page instead either raises (unsorted tail, no write) or checkpoints
`since_id` and `updated_at_max` — leaving both keys set — and keeps
looping. -/
theorem c7_amended (api : QueryParams → List Obj) (limit : Nat)
    (lo hi : Int) (fuel : Nat) (s mb : Int) (st : StreamState)
    (hfloor : (api ⟨s, lo, hi, limit⟩).any (fun o => decide (o.id < s)) = false) :
    ((api ⟨s, lo, hi, limit⟩).length < limit →
      innerLoop api limit lo hi (fuel + 1) s mb st =
        ⟨api ⟨s, lo, hi, limit⟩, [WEvent.repKey hi],
          (api ⟨s, lo, hi, limit⟩).foldl (fun m o => max m o.updatedAt) mb,
          { st with sinceId := none, updatedAtMax := none, repKey := some hi },
          InnerOut.closed⟩) ∧
    (¬ (api ⟨s, lo, hi, limit⟩).length < limit →
      lastId (api ⟨s, lo, hi, limit⟩) ≠ pageMaxId (api ⟨s, lo, hi, limit⟩) →
      innerLoop api limit lo hi (fuel + 1) s mb st =
        ⟨api ⟨s, lo, hi, limit⟩, [],
          (api ⟨s, lo, hi, limit⟩).foldl (fun m o => max m o.updatedAt) mb, st,
          InnerOut.orderErr⟩) ∧
    (¬ (api ⟨s, lo, hi, limit⟩).length < limit →
      lastId (api ⟨s, lo, hi, limit⟩) = pageMaxId (api ⟨s, lo, hi, limit⟩) →
      innerLoop api limit lo hi (fuel + 1) s mb st =
        ⟨api ⟨s, lo, hi, limit⟩ ++
            (innerLoop api limit lo hi fuel (lastId (api ⟨s, lo, hi, limit⟩))
              ((api ⟨s, lo, hi, limit⟩).foldl (fun m o => max m o.updatedAt) mb)
              { st with sinceId := some (lastId (api ⟨s, lo, hi, limit⟩)),
                        updatedAtMax := some hi }).yielded,
          WEvent.sinceId (lastId (api ⟨s, lo, hi, limit⟩)) :: WEvent.updatedAtMax hi ::
            (innerLoop api limit lo hi fuel (lastId (api ⟨s, lo, hi, limit⟩))
              ((api ⟨s, lo, hi, limit⟩).foldl (fun m o => max m o.updatedAt) mb)
              { st with sinceId := some (lastId (api ⟨s, lo, hi, limit⟩)),
                        updatedAtMax := some hi }).events,
          (innerLoop api limit lo hi fuel (lastId (api ⟨s, lo, hi, limit⟩))
              ((api ⟨s, lo, hi, limit⟩).foldl (fun m o => max m o.updatedAt) mb)
              { st with sinceId := some (lastId (api ⟨s, lo, hi, limit⟩)),
                        updatedAtMax := some hi }).maxBookmark,
          (innerLoop api limit lo hi fuel (lastId (api ⟨s, lo, hi, limit⟩))
              ((api ⟨s, lo, hi, limit⟩).foldl (fun m o => max m o.updatedAt) mb)
              { st with sinceId := some (lastId (api ⟨s, lo, hi, limit⟩)),
                        updatedAtMax := some hi }).state,
          (innerLoop api limit lo hi fuel (lastId (api ⟨s, lo, hi, limit⟩))
              ((api ⟨s, lo, hi, limit⟩).foldl (fun m o => max m o.updatedAt) mb)
              { st with sinceId := some (lastId (api ⟨s, lo, hi, limit⟩)),
                        updatedAtMax := some hi }).out⟩) :=
  ⟨fun hlen => innerLoop_step_closed api limit lo hi fuel s mb st hfloor hlen,
    fun hlen hsort => innerLoop_step_orderErr api limit lo hi fuel s mb st hfloor hlen hsort,
    fun hlen hsort => innerLoop_step_next api limit lo hi fuel s mb st hfloor hlen hsort⟩

/-- C7 witness: the closed branch of the amended theorem at a concrete
short page — the mid-window keys are cleared and the window bound persisted
as the bookmark. -/
theorem c7_witness :
    innerLoop (fun _ => [⟨5, 3⟩]) 2 0 4 1 1 0 ⟨some 0, some 1, some 4⟩ =
      ⟨[⟨5, 3⟩], [WEvent.repKey 4], 3, ⟨some 4, none, none⟩, InnerOut.closed⟩ := by
  have h := (c7_amended (fun _ => [⟨5, 3⟩]) 2 0 4 0 1 0 ⟨some 0, some 1, some 4⟩
    (by decide)).1 (by decide)
  rw [h]
  decide

/-! ## C8 — window upper bounds and the interrupted carry-over -/

/-- C8 confirmed: on the first outer iteration of `get_objects`, a stored
`updated_at_max` from an interrupted sync (which, having been recorded under
an earlier `stop_time`, does not exceed the current one — hypothesis
`c ≤ stop`) is used as the window's upper bound, with the window starting
from the stored `since_id` (defaulting to 1, per `get_since_id() or 1`);
with no stored value, and on every subsequent iteration, the upper bound is
`updated_at_min + date_window_size` clamped to not exceed `stop_time` — so
the carry-over is cleared after its first use and never shapes a later
window. -/
theorem c8_window_bounds (api : QueryParams → List Obj) (limit : Nat)
    (start w stop : Int) (fuelO fuelI : Nat) (st0 : StreamState) :
    (∀ win ∈ (get_objects api limit start w stop fuelO fuelI st0).windows.tail,
      win.hi = min (win.lo + w) stop) ∧
    (st0.updatedAtMax = none →
      ∀ win ∈ (get_objects api limit start w stop fuelO fuelI st0).windows,
        win.hi = min (win.lo + w) stop) ∧
    (∀ c, st0.updatedAtMax = some c → c ≤ stop →
      ∀ win, (get_objects api limit start w stop fuelO fuelI st0).windows.head? =
          some win →
        win.hi = c ∧ win.lo = st0.repKey.getD start ∧
          win.sinceId = sinceIdOrOne st0) := by
  refine ⟨?_, ?_, ?_⟩
  · intro win hwin
    exact (outerLoop_windows_tail api limit w stop fuelI fuelO st0.updatedAtMax
      (st0.repKey.getD start) (st0.repKey.getD start) st0 win hwin).1
  · intro hnone win hwin
    unfold get_objects at hwin
    rw [hnone] at hwin
    exact (outerLoop_windows api limit w stop fuelI fuelO
      (st0.repKey.getD start) (st0.repKey.getD start) st0 win hwin).1
  · intro c hsome hle win hwin
    have h := outerLoop_head_window api limit w stop fuelI fuelO st0.updatedAtMax
      (st0.repKey.getD start) (st0.repKey.getD start) st0 win hwin
    rcases h with ⟨hwin2, _⟩
    subst hwin2
    rw [hsome]
    exact ⟨by simp [min_eq_left hle], rfl, rfl⟩

/-- C8 witness: the theorem applied to a concrete resumed run — stored
`updated_at_max = 1` and `since_id = 5` shape the first window `⟨5, 0, 1⟩`;
the second window falls back to the clamped `updated_at_min + w` rule. -/
theorem c8_witness :
    (get_objects (fun _ => []) 1 0 1 2 5 1 ⟨some 0, some 5, some 1⟩).windows.head? =
      some ⟨5, 0, 1⟩ ∧
    ((⟨5, 0, 1⟩ : WindowInfo).hi = 1 ∧
      (⟨5, 0, 1⟩ : WindowInfo).lo = (⟨some 0, some 5, some 1⟩ : StreamState).repKey.getD 0 ∧
      (⟨5, 0, 1⟩ : WindowInfo).sinceId = sinceIdOrOne ⟨some 0, some 5, some 1⟩) ∧
    (∀ win ∈ (get_objects (fun _ => []) 1 0 1 2 5 1
        ⟨some 0, some 5, some 1⟩).windows.tail, win.hi = min (win.lo + 1) 2) :=
  ⟨by decide,
    (c8_window_bounds (fun _ => []) 1 0 1 2 5 1 ⟨some 0, some 5, some 1⟩).2.2 1 rfl
      (by decide) ⟨5, 0, 1⟩ (by decide),
    (c8_window_bounds (fun _ => []) 1 0 1 2 5 1 ⟨some 0, some 5, some 1⟩).1⟩

/-! ## C2 — monotonicity of the persisted replication-key bookmark -/

/-- C2 counterexample.  A run starting from bookmark 9 with window size 2
and `stop_time` 10 over an empty resultset first closes its (only) window by
persisting `updated_at_max = 10` as the replication-key bookmark, and then
the finalization step persists
`max(min(stop_time, max_bookmark), stop_time - date_window_size) = 9`: the
sequence of persisted replication-key values is `[10, 9]`, which rolls the
bookmark back and is not non-decreasing. -/
theorem c2_counterexample :
    repKeyValues (get_objects (fun _ => []) 175 9 2 10 3 1 ⟨none, none, none⟩).events =
      [10, 9] ∧
    ¬ List.Chain' (fun a b => a ≤ b)
        (repKeyValues (get_objects (fun _ => []) 175 9 2 10 3 1
          ⟨none, none, none⟩).events) := by
  refine ⟨by decide, ?_⟩
  rw [show repKeyValues (get_objects (fun _ => []) 175 9 2 10 3 1
      ⟨none, none, none⟩).events = [(10 : Int), 9] from by decide]
  simp

/-- C2 amended: within a run whose `date_window_size` is nonnegative and
whose stored interrupted `updated_at_max` (if any) is not earlier than the
starting bookmark, the replication-key values persisted by WINDOW CLOSES
form a non-decreasing sequence, each at least the starting bookmark; only
the final finalization write
`max(min(stop_time, max_bookmark), stop_time - date_window_size)` may fall
below the window-close write that precedes it (see the counterexample). -/
theorem c2_amended (api : QueryParams → List Obj) (limit : Nat)
    (start w stop : Int) (fuelO fuelI : Nat) (st0 : StreamState)
    (hw : 0 ≤ w)
    (hcarry : ∀ c, st0.updatedAtMax = some c → st0.repKey.getD start ≤ c) :
    List.Chain' (fun a b => a ≤ b)
        (closeWrites (get_objects api limit start w stop fuelO fuelI st0)) ∧
    ∀ v ∈ closeWrites (get_objects api limit start w stop fuelO fuelI st0),
      st0.repKey.getD start ≤ v := by
  have h := outerLoop_closeWrites api limit w stop fuelI hw fuelO st0.updatedAtMax
    (st0.repKey.getD start) (st0.repKey.getD start) st0 hcarry
  exact ⟨h.1, h.2.1⟩

/-- C2 witness: the amended theorem applied to the counterexample's run —
the single window-close write `[10]` (finalization excluded) is trivially
non-decreasing and at least the starting bookmark 9. -/
theorem c2_witness :
    List.Chain' (fun a b => a ≤ b)
        (closeWrites (get_objects (fun _ => []) 175 9 2 10 4 1 ⟨none, none, none⟩)) ∧
    ∀ v ∈ closeWrites (get_objects (fun _ => []) 175 9 2 10 4 1 ⟨none, none, none⟩),
      (9 : Int) ≤ v :=
  c2_amended (fun _ => []) 175 9 2 10 4 1 ⟨none, none, none⟩ (by decide)
    (fun c hcc => by cases hcc)

/-! ## C10 — termination of the outer loop -/

/-- C10 counterexample.  With `date_window_size = 1 > 0` and a stored
interrupted `updated_at_max` equal to the starting bookmark (0, "not earlier
than" it), the first outer iteration reuses it as the window bound: the
window runs `[0, 0]` and `updated_at_min` stays 0 — it does not strictly
increase, and in particular does not increase by
`min(date_window_size, stop_time - updated_at_min) = 1` — even though the
run still terminates. -/
theorem c10_counterexample :
    (0 : Int) < 1 ∧
    (⟨some 0, none, some 0⟩ : StreamState).updatedAtMax = some 0 ∧
    (get_objects (fun _ => []) 1 0 1 2 5 1 ⟨some 0, none, some 0⟩).windows.head? =
      some ⟨1, 0, 0⟩ ∧
    (⟨1, 0, 0⟩ : WindowInfo).hi = (⟨1, 0, 0⟩ : WindowInfo).lo ∧
    min (1 : Int) (2 - 0) = 1 ∧
    (get_objects (fun _ => []) 1 0 1 2 5 1 ⟨some 0, none, some 0⟩).outcome =
      Outcome.done := by
  decide

/-- C10 amended: with `date_window_size > 0` and any stored interrupted
`updated_at_max` not earlier than the starting bookmark, the outer loop of
`get_objects` terminates — outer fuel `n + 2` with
`stop_time - start_bookmark ≤ n * w` is never exhausted; every carry-free
iteration advances `updated_at_min` by exactly
`min(date_window_size, stop_time - updated_at_min)`, strictly (the carried
first iteration need not advance it — see the counterexample); and with
`date_window_size = 0` termination fails: a concrete run exhausts every
outer fuel. -/
theorem c10_amended (api : QueryParams → List Obj) (limit : Nat)
    (start w stop : Int) (fuelI : Nat) (st0 : StreamState) (n : Nat)
    (hw : 0 < w)
    (hcarry : ∀ c, st0.updatedAtMax = some c → st0.repKey.getD start ≤ c)
    (hn : stop - st0.repKey.getD start ≤ (n : Int) * w) :
    (get_objects api limit start w stop (n + 2) fuelI st0).outcome ≠
      Outcome.fuelOuter ∧
    (∀ win ∈ (get_objects api limit start w stop (n + 2) fuelI st0).windows.tail,
      win.hi = win.lo + min w (stop - win.lo) ∧ win.lo < win.hi) ∧
    (∀ fuelO : Nat,
      (get_objects (fun _ => []) 1 0 0 1 fuelO 1 ⟨none, none, none⟩).outcome =
        Outcome.fuelOuter) := by
  refine ⟨?_, ?_, ?_⟩
  · unfold get_objects
    rw [outerLoop]
    by_cases hm : st0.repKey.getD start < stop
    · simp only [if_pos hm]
      split
      · next hQ =>
          have hkw : (0 : Int) ≤ (n : Int) * w :=
            mul_nonneg (Int.natCast_nonneg n) (le_of_lt hw)
          have hb2 : stop - min (st0.updatedAtMax.getD (st0.repKey.getD start + w)) stop ≤
              (n : Int) * w := by
            cases hst : st0.updatedAtMax with
            | none =>
                simp only [Option.getD_none]
                rcases le_or_lt (st0.repKey.getD start + w) stop with h | h
                · rw [min_eq_left h]; omega
                · rw [min_eq_right (le_of_lt h)]; omega
            | some c =>
                have hcm := hcarry c hst
                simp only [Option.getD_some]
                rcases le_or_lt c stop with h | h
                · rw [min_eq_left h]; omega
                · rw [min_eq_right (le_of_lt h)]; omega
          have hrec := outerLoop_terminates api limit w stop fuelI hw n
            (min (st0.updatedAtMax.getD (st0.repKey.getD start + w)) stop)
            (innerLoop api limit (st0.repKey.getD start)
              (min (st0.updatedAtMax.getD (st0.repKey.getD start + w)) stop) fuelI
              (sinceIdOrOne st0) (st0.repKey.getD start) st0).maxBookmark
            (innerLoop api limit (st0.repKey.getD start)
              (min (st0.updatedAtMax.getD (st0.repKey.getD start + w)) stop) fuelI
              (sinceIdOrOne st0) (st0.repKey.getD start) st0).state hb2
          simpa using hrec
      · next hQ => simp
      · next hQ => simp
    · simp [if_neg hm]
  · intro win hwin
    have h := outerLoop_windows_tail api limit w stop fuelI (n + 2) st0.updatedAtMax
      (st0.repKey.getD start) (st0.repKey.getD start) st0 win hwin
    rcases h with ⟨h1, h2⟩
    have h3 : min (win.lo + w) stop = win.lo + min w (stop - win.lo) := by
      rcases le_total (win.lo + w) stop with h | h
      · rw [min_eq_left h, min_eq_left (by omega)]
      · rw [min_eq_right h, min_eq_right (by omega)]
        omega
    refine ⟨by rw [h1, h3], ?_⟩
    rw [h1]
    exact lt_min (by omega) h2
  · intro fuelO
    exact outerLoop_zero_window_spins fuelO 0 ⟨none, none, none⟩

/-- C10 witness: the amended theorem applied at window size 1, starting
bookmark 0, stop 2, carry 1 and fuel bound `n = 2`. -/
theorem c10_witness :
    (get_objects (fun _ => []) 1 0 1 2 4 1 ⟨some 0, none, some 1⟩).outcome ≠
      Outcome.fuelOuter ∧
    (∀ win ∈ (get_objects (fun _ => []) 1 0 1 2 4 1
        ⟨some 0, none, some 1⟩).windows.tail,
      win.hi = win.lo + min 1 (2 - win.lo) ∧ win.lo < win.hi) ∧
    (∀ fuelO : Nat,
      (get_objects (fun _ => []) 1 0 0 1 fuelO 1 ⟨none, none, none⟩).outcome =
        Outcome.fuelOuter) :=
  c10_amended (fun _ => []) 1 0 1 2 1 ⟨some 0, none, some 1⟩ 2 (by decide)
    (fun c hcc => by cases hcc; decide) (by decide)
